import Mathlib

/-!
# wails-service-logto: callback listener, sign-in orchestration, store, configuration

A shallow embedding of `listener.go`, `logto.go`, `store.go` and `config.go`.

Conventions of the embedding:

* a Go `error` is `Option GoError` (`none` is `nil`);
* a Go pointer that may be `nil` is an `Option`;
* a Go slice or map is an `Option` of a list, where `none` is the `nil` slice
  or map;
* calls that leave the repository (`url.Parse`, `net.Listen`, `http.ServeMux`,
  the Logto client, `time.ParseDuration`, the state of a `context.Context`, the
  scheduler's choice in a `select`) are fields of an environment record, so
  every definition is a computable function of the environment;
* a call that can panic says so in its result;
* the external calls a function makes are recorded, in order, in a trace.
-/

set_option autoImplicit false

namespace WailsLogto

/-! ## Go values -/

/-- Go error values: the two sentinels of package `context`, any other leaf
error, and an error that wraps another one (its `Unwrap` returns `inner`). -/
inductive GoError where
  | deadlineExceeded
  | canceled
  | other (msg : String)
  | wrap (msg : String) (inner : GoError)
  deriving DecidableEq, Repr

/-- The loop of `errors.Is` for a non-nil error and a comparable target:
compare, then unwrap. -/
def GoError.is : GoError → GoError → Bool
  | .wrap msg inner, target =>
    if GoError.wrap msg inner = target then true else inner.is target
  | err, target => decide (err = target)

/-- Go `errors.Is(err, target)` for a non-nil `target`: a nil `err` matches nothing. -/
def errorsIs (err : Option GoError) (target : GoError) : Bool :=
  match err with
  | none => false
  | some e => e.is target

/-- A Go slice: `none` is the nil slice, `some xs` a non-nil slice with elements `xs`. -/
abbrev GoSlice (α : Type) := Option (List α)

/-- Elements of a slice, as `range` sees them (a nil slice has none). -/
def GoSlice.elems {α : Type} (s : GoSlice α) : List α :=
  match s with
  | none => []
  | some xs => xs

/-- Go `len(s)`. -/
def GoSlice.len {α : Type} (s : GoSlice α) : Nat := s.elems.length

/-- Go `append(s, x)`: the result is never nil. -/
def GoSlice.append {α : Type} (s : GoSlice α) (x : α) : GoSlice α :=
  some (s.elems ++ [x])

/-! ## listener.go -/

/-- The fields of `url.URL` that `StartListener` reads. -/
structure URL where
  Host : String
  Path : String
  deriving DecidableEq, Repr

/-- An inbound HTTP request, as far as routing looks at it. -/
structure Request where
  Method : String
  Path : String
  RawQuery : String
  deriving DecidableEq, Repr

/-- Go `type CallbackHandler func(r *http.Request) error`. -/
abbrev CallbackHandler := Request → Option GoError

/-- Go `type Result struct { Success bool; Error error }`. -/
structure Result where
  Success : Bool
  Error : Option GoError
  deriving DecidableEq, Repr

/-- State of a `context.Context` as `Done()` and `Err()` show it: `err` is
`none` while `Done()` is open and the non-nil `Err()` once it is closed. -/
structure CtxState where
  err : Option GoError
  deriving DecidableEq, Repr

/-- Calling the `CancelFunc` of `context.WithCancel(context.Background())`:
the first cancellation sets `Err()` to `context.Canceled`, later ones do nothing. -/
def CtxState.cancel (c : CtxState) : CtxState :=
  match c.err with
  | none => ⟨some GoError.canceled⟩
  | some _ => c

/-- The `http.Server` built by `StartListener`: its address, the single route
pattern of its mux, the requests the mux sends to that route besides those
that spell the pattern (see `Net.routes`), the handler captured by the route,
and whether it is closed. -/
structure HTTPServer where
  Addr : String
  pattern : String
  routes : Request → Bool
  handler : CallbackHandler
  closed : Bool

/-- The `net.Listener` returned by `net.Listen`: the address the socket is
bound to (its `Addr()`) and whether the socket has been released. -/
structure TCPListener where
  addr : String
  closed : Bool
  deriving DecidableEq, Repr

/-- Go `type Listener struct`. `result` is the unbuffered channel: `some r` is
a value offered by the route handler and not yet received. `ctx` with
`CtxState.cancel` stands for the pair `ctx`, `cancel`. -/
structure Listener where
  server : HTTPServer
  tcpListener : TCPListener
  result : Option Result
  ctx : CtxState

/-- The library calls `StartListener` makes.
`parse` is `url.Parse`.
`listen h` is `net.Listen("tcp", h)`, `none` meaning the socket was bound and
`some e` the bind error; `addr h` is the address of the socket bound for `h`,
which differs from `h` when `h` asks for port 0.
`handleFunc p` tells whether `HandleFunc(p, _)` on a new `http.ServeMux`
returns (`true`) or panics because `p` is not a valid pattern (`false`).
`routes p r` tells whether a mux holding the pattern `p` sends the request `r`
to it although `r` does not spell the pattern (a HEAD request for a GET
pattern, a path under a subtree or wildcard pattern). -/
structure Net where
  parse : String → Except GoError URL
  listen : String → Option GoError
  addr : String → String
  handleFunc : String → Bool
  routes : String → Request → Bool

/-- External calls of `StartListener`, in the order they are made. -/
inductive NetEvent where
  | parse (serveUrl : String)
  | listen (host : String)
  | handleFunc (pattern : String)
  | serve (host : String) (pattern : String)
  deriving DecidableEq, Repr

/-- How a call of `StartListener` ends, with the trace of its external calls:
either it returns `listener`, `url` and `err`, or it panics (`panicked`), and
then `leaked` is the socket it had bound and never released. -/
structure Started where
  listener : Option Listener
  url : String
  err : Option GoError
  trace : List NetEvent
  panicked : Bool
  leaked : Option TCPListener

/-- The body of the route closure of `StartListener`: run the handler and
build the `Result` sent on the channel. -/
def routeFunc (handler : CallbackHandler) (r : Request) : Result :=
  let err := handler r
  ⟨err == none, err⟩

/-- The `for _, serveUrl := range urlOptions` loop of `StartListener`, with the
local `lastErr` as an argument. On the first bound socket the route is
registered with `router.HandleFunc`, which panics on an invalid pattern. -/
def StartListener.loop (net : Net) (handler : CallbackHandler) :
    List String → Option GoError → Started
  | [], lastErr => ⟨none, "", lastErr, [], false, none⟩
  | serveUrl :: rest, _ =>
    match net.parse serveUrl with
    | .error err => ⟨none, "", some err, [.parse serveUrl], false, none⟩
    | .ok route =>
      match net.listen route.Host with
      | some err =>
        let r := StartListener.loop net handler rest (some err)
        ⟨r.listener, r.url, r.err, .parse serveUrl :: .listen route.Host :: r.trace,
          r.panicked, r.leaked⟩
      | none =>
        let listening : TCPListener := ⟨net.addr route.Host, false⟩
        let pattern := "GET " ++ route.Path
        if net.handleFunc pattern then
          let server : HTTPServer := ⟨route.Host, pattern, net.routes pattern, handler, false⟩
          let listener : Listener := ⟨server, listening, none, ⟨none⟩⟩
          ⟨some listener, serveUrl, none,
            [.parse serveUrl, .listen route.Host, .handleFunc pattern,
              .serve route.Host pattern], false, none⟩
        else
          ⟨none, "", none, [.parse serveUrl, .listen route.Host, .handleFunc pattern],
            true, some listening⟩

/-- Go `func StartListener(handler CallbackHandler, urlOptions ...string)`. -/
def StartListener (net : Net) (handler : CallbackHandler) (urlOptions : GoSlice String) :
    Started :=
  StartListener.loop net handler urlOptions.elems none

/-- The URLs handed to `url.Parse`, in order. -/
def parsedURLs : List NetEvent → List String
  | [] => []
  | .parse u :: t => u :: parsedURLs t
  | _ :: t => parsedURLs t

/-- The hosts handed to `net.Listen`, in order. -/
def listenedHosts : List NetEvent → List String
  | [] => []
  | .listen h :: t => h :: listenedHosts t
  | _ :: t => listenedHosts t

/-- Go `func (c *Listener) Close()`. -/
def Listener.Close (c : Listener) : Listener :=
  ⟨⟨c.server.Addr, c.server.pattern, c.server.routes, c.server.handler, true⟩,
    ⟨c.tcpListener.addr, true⟩, c.result, c.ctx.cancel⟩

/-- The three cases of the `select` in `Await`. -/
inductive Arm where
  | result
  | ctxDone
  | lifecycleDone
  deriving DecidableEq, Repr

/-- Go `func (c *Listener) Await(ctx context.Context) (bool, error)`. `ctx` is
the state of the caller's context when the `select` resolves and `pick` the
case the scheduler chooses; a case that is not ready cannot be chosen, and
then the call stays blocked (`none`). The deferred `Close` runs after the
return values are computed. -/
def Listener.Await (c : Listener) (ctx : CtxState) (pick : Arm) :
    Option ((Bool × Option GoError) × Listener) :=
  match pick with
  | .result =>
    match c.result with
    | some result =>
      some ((result.Success, result.Error),
        Listener.Close ⟨c.server, c.tcpListener, none, c.ctx⟩)
    | none => none
  | .ctxDone =>
    match ctx.err with
    | some e => some ((false, some e), c.Close)
    | none => none
  | .lifecycleDone =>
    match c.ctx.err with
    | some e => some ((false, some e), c.Close)
    | none => none

/-- The server goroutine receiving request `r`: a closed server serves nothing,
a request the mux does not send to the route never reaches the route closure,
and otherwise the closure runs and offers its `Result` on the channel, behind
a value that is already waiting there. The mux sends to the route the requests
that spell its pattern and those `routes` adds. -/
def Listener.serve (c : Listener) (r : Request) : Listener :=
  if c.server.closed then c
  else if r.Method ++ " " ++ r.Path = c.server.pattern ∨ c.server.routes r = true then
    match c.result with
    | some _ => c
    | none => ⟨c.server, c.tcpListener, some (routeFunc c.server.handler r), c.ctx⟩
  else c

/-! ## store.go -/

/-- Go `map[string]string` as an association list with one entry per key. -/
abbrev GoMap := List (String × String)

/-- Go `m[key]` on a `map[string]string`: the value, or the zero value `""`. -/
def GoMap.get (m : GoMap) (key : String) : String :=
  match m.lookup key with
  | some value => value
  | none => ""

/-- Go `m[key] = value`. -/
def GoMap.set (m : GoMap) (key value : String) : GoMap :=
  (key, value) :: m.filter (fun p => p.1 != key)

/-- Go `type Store struct { sync.Mutex; vals map[string]string }`. `vals` is
`none` for the nil map of the zero value `Store{}`. The mutex is taken and
released inside each call, so between calls it is always free and carries no
state here. -/
structure Store where
  vals : Option GoMap
  deriving DecidableEq, Repr

/-- Go `func NewStore() *Store`. -/
def NewStore : Store := ⟨some []⟩

/-- Go `func (s *Store) GetItem(key string) string`, returning the value read
and the store after the call. Reading a nil map gives the zero value. -/
def Store.GetItem (s : Store) (key : String) : String × Store :=
  match s.vals with
  | none => ("", s)
  | some m => (m.get key, s)

/-- Go `func (s *Store) SetItem(key, value string)`, returning the store after
the call, or `none` when the call panics: assignment to an entry of a nil map. -/
def Store.SetItem (s : Store) (key value : String) : Option Store :=
  match s.vals with
  | none => none
  | some m => some ⟨some (m.set key value)⟩

/-- A sequence of `SetItem` calls, one per pair, stopping at a panic. -/
def Store.setAll : List (String × String) → Store → Option Store
  | [], s => some s
  | p :: rest, s =>
    match s.SetItem p.1 p.2 with
    | none => none
    | some s1 => Store.setAll rest s1

/-! ## config.go -/

/-- Go `type RedirectURIs struct { SignIn string; SignOut string }`. -/
structure RedirectURIs where
  SignIn : String
  SignOut : String
  deriving DecidableEq, Repr

/-- The fields of `application.WebviewWindowOptions` the service writes. -/
structure WebviewWindowOptions where
  URL : String
  Hidden : Bool
  deriving DecidableEq, Repr

/-- Go `type Config struct`. `LogToConfig` only feeds the Logto client, which
is part of the environment; `AuthTimeout` is a `time.Duration` in nanoseconds. -/
structure Config where
  RedirectAddresses : GoSlice RedirectURIs
  WindowOptions : WebviewWindowOptions
  AuthTimeout : Int
  deriving DecidableEq, Repr

/-- Go `func (c *Config) SignInURIs() []string`, returning the slice and the
configuration after the call. -/
def Config.SignInURIs (c : Config) : GoSlice String × Config :=
  (c.RedirectAddresses.elems.foldl
    (fun uris redirect => GoSlice.append uris redirect.SignIn) (some []), c)

/-- Go `func (c *Config) SignOutURIs() []string`, returning the slice and the
configuration after the call. -/
def Config.SignOutURIs (c : Config) : GoSlice String × Config :=
  (c.RedirectAddresses.elems.foldl
    (fun uris redirect => GoSlice.append uris redirect.SignOut) (some []), c)

/-! ## logto.go -/

/-- The fields of `client.DirectSignInOptions`. -/
structure DirectSignInOptions where
  Method : String
  Target : String
  deriving DecidableEq, Repr

/-- The fields of `client.SignInOptions` that `SignIn` reads and writes. The
zero value has empty strings, nil collections and a nil pointer. -/
structure SignInOptions where
  RedirectUri : String
  Prompt : String
  FirstScreen : String
  Identifiers : GoSlice String
  DirectSignIn : Option DirectSignInOptions
  LoginHint : String
  ExtraParams : Option GoMap
  deriving DecidableEq, Repr

/-- Go `len(m)` for a map that may be nil. -/
def mapLen (m : Option GoMap) : Nat :=
  match m with
  | none => 0
  | some entries => entries.length

/-- A `context.Context` as the expression that built it. -/
inductive Context where
  | background
  | withCancel (parent : Context)
  | withTimeout (parent : Context) (timeout : Int)
  deriving DecidableEq, Repr

/-- Go `type Service struct`. The Logto client is part of the environment. -/
structure Service where
  config : Config
  ctx : Context
  deriving DecidableEq, Repr

/-- What the outside world does between the creation of the window and the
moment the `select` of `Await` resolves. -/
inductive EnvEvent where
  | request (r : Request)
  | windowClosing
  deriving DecidableEq, Repr

/-- Everything outside the repository that a sign-in or sign-out run meets. -/
structure Env where
  net : Net
  handleSignInCallback : CallbackHandler
  clientSignIn : SignInOptions → Except GoError String
  clientSignOut : String → Except GoError String
  parseDuration : String → Except GoError Int
  events : List EnvEvent
  ctxState : Context → CtxState
  pick : Arm

/-- External calls of a sign-in or sign-out run, in the order they are made. -/
inductive Call where
  | net (e : NetEvent)
  | parseDuration (timeAllowed : String)
  | clientSignIn (opts : SignInOptions)
  | clientSignOut (postLogoutRedirectUri : String)
  | newWindow (conf : WebviewWindowOptions)
  | windowClose
  deriving DecidableEq, Repr

/-- How a call ends: it returns a pair, it panics (in `StartListener`, or on a
nil listener), or it stays blocked in `Await`. -/
inductive Ret where
  | returned (ok : Bool) (err : Option GoError)
  | panicked
  | blocked
  deriving DecidableEq, Repr

/-- A finished run: how it ended, the listener it started in its final state,
and the trace of external calls. -/
structure Flow where
  ret : Ret
  listener : Option Listener
  trace : List Call

/-- Go `func (s *Service) newAuthCtx() context.Context`. -/
def Service.newAuthCtx (s : Service) : Context :=
  if s.config.AuthTimeout = 0 then s.ctx
  else Context.withTimeout s.ctx s.config.AuthTimeout

/-- The events of the environment acting on the listener and on the `closed`
flag: a request reaches the server goroutine; a `WindowClosing` event runs the
`onClose` closure passed to `newWindow`, which stores `true` in `closed` and
calls `listener.Close()`. -/
def runEvents : List EnvEvent → Listener → Bool → Listener × Bool
  | [], listener, closed => (listener, closed)
  | .request r :: rest, listener, closed => runEvents rest (listener.serve r) closed
  | .windowClosing :: rest, listener, _ => runEvents rest listener.Close true

/-- The block shared by `SignIn`, `TryAutoSignIn` and `SignOut` from the call
of `newWindow` to the test of `closed`: the window exists, the environment
acts, `listener.Await(ctx)` runs, and the window is closed unless `closed` is
set. The result is the pair `Await` returned, the listener afterwards and the
calls made; `Except.error` is a run that does not return from `Await`. A nil
`listener` is dereferenced inside `Await`. -/
def awaitCallback (env : Env) (listener : Option Listener) (ctx : Context) :
    Except Ret ((Bool × Option GoError) × Listener × List Call) :=
  match listener with
  | none => .error Ret.panicked
  | some l =>
    let (l1, closed) := runEvents env.events l false
    match l1.Await (env.ctxState ctx) env.pick with
    | none => .error Ret.blocked
    | some (res, l2) =>
      .ok (res, l2, if !closed then [Call.windowClose] else [])

/-- Lines 65 to 95 of `SignIn`: the options handed to the URL builder, built
from the callback URL and the variadic `opts`. -/
def Service.SignIn.clientOpts (callbackUrl : String) (opts : List (Option SignInOptions)) :
    SignInOptions :=
  let clientOpts : SignInOptions := ⟨callbackUrl, "", "", none, none, "", none⟩
  let options : Option SignInOptions :=
    match opts with
    | [] => none
    | o :: _ => o
  match options with
  | none => clientOpts
  | some options =>
    let clientOpts :=
      if options.RedirectUri ≠ "" then
        { clientOpts with RedirectUri := options.RedirectUri } else clientOpts
    let clientOpts :=
      if options.Prompt ≠ "" then
        { clientOpts with Prompt := options.Prompt } else clientOpts
    let clientOpts :=
      if options.FirstScreen ≠ "" then
        { clientOpts with FirstScreen := options.FirstScreen } else clientOpts
    let clientOpts :=
      if options.Identifiers.len > 0 then
        { clientOpts with Identifiers := options.Identifiers } else clientOpts
    let clientOpts :=
      if options.DirectSignIn ≠ none then
        { clientOpts with DirectSignIn := options.DirectSignIn } else clientOpts
    let clientOpts :=
      if options.LoginHint ≠ "" then
        { clientOpts with LoginHint := options.LoginHint } else clientOpts
    if mapLen options.ExtraParams > 0 then
      { clientOpts with ExtraParams := options.ExtraParams } else clientOpts

/-- Go `func (s *Service) SignIn(opts ...*client.SignInOptions) (bool, error)`. -/
def Service.SignIn (s : Service) (env : Env) (opts : List (Option SignInOptions)) : Flow :=
  let started := StartListener env.net env.handleSignInCallback s.config.SignInURIs.1
  let tr0 := started.trace.map Call.net
  if started.panicked then ⟨.panicked, none, tr0⟩
  else
  match started.err with
  | some err => ⟨.returned false (some err), started.listener, tr0⟩
  | none =>
    let callbackUrl := started.url
    let clientOpts := Service.SignIn.clientOpts callbackUrl opts
    let tr1 := tr0 ++ [Call.clientSignIn clientOpts]
    match env.clientSignIn clientOpts with
    | .error err => ⟨.returned false (some err), started.listener, tr1⟩
    | .ok signinUrl =>
      let windowOpts := s.config.WindowOptions
      let windowOpts := { windowOpts with URL := signinUrl }
      let tr2 := tr1 ++ [Call.newWindow windowOpts]
      match awaitCallback env started.listener s.newAuthCtx with
      | .error stuck => ⟨stuck, started.listener, tr2⟩
      | .ok ((result, err), l, calls) =>
        ⟨.returned result err, some l, tr2 ++ calls⟩

/-- Go `func (s *Service) TryAutoSignIn(timeAllowed string) (bool, error)`. -/
def Service.TryAutoSignIn (s : Service) (env : Env) (timeAllowed : String) : Flow :=
  match env.parseDuration timeAllowed with
  | .error err => ⟨.returned false (some err), none, [.parseDuration timeAllowed]⟩
  | .ok timeoutDuration =>
    let started := StartListener env.net env.handleSignInCallback s.config.SignInURIs.1
    let tr0 := Call.parseDuration timeAllowed :: started.trace.map Call.net
    if started.panicked then ⟨.panicked, none, tr0⟩
    else
    match started.err with
    | some err => ⟨.returned false (some err), started.listener, tr0⟩
    | none =>
      let callbackUrl := started.url
      let clientOpts : SignInOptions := ⟨callbackUrl, "", "", none, none, "", none⟩
      let tr1 := tr0 ++ [Call.clientSignIn clientOpts]
      match env.clientSignIn clientOpts with
      | .error err => ⟨.returned false (some err), started.listener, tr1⟩
      | .ok signinUrl =>
        let windowOpts := s.config.WindowOptions
        let windowOpts := { windowOpts with URL := signinUrl }
        let windowOpts := { windowOpts with Hidden := true }
        let tr2 := tr1 ++ [Call.newWindow windowOpts]
        let ctx := Context.withTimeout s.newAuthCtx timeoutDuration
        match awaitCallback env started.listener ctx with
        | .error stuck => ⟨stuck, started.listener, tr2⟩
        | .ok ((result, err), l, calls) =>
          if errorsIs err GoError.deadlineExceeded || errorsIs err GoError.canceled then
            ⟨.returned false none, some l, tr2 ++ calls⟩
          else
            ⟨.returned result err, some l, tr2 ++ calls⟩

/-- Go `func (s *Service) SignOut() (bool, error)`. -/
def Service.SignOut (s : Service) (env : Env) : Flow :=
  let handleSignOutCallback : CallbackHandler := fun _ => none
  let started := StartListener env.net handleSignOutCallback s.config.SignOutURIs.1
  let tr0 := started.trace.map Call.net
  if started.panicked then ⟨.panicked, none, tr0⟩
  else
  match started.err with
  | some err => ⟨.returned false (some err), started.listener, tr0⟩
  | none =>
    let callbackUrl := started.url
    let tr1 := tr0 ++ [Call.clientSignOut callbackUrl]
    match env.clientSignOut callbackUrl with
    | .error err => ⟨.returned false (some err), started.listener, tr1⟩
    | .ok signoutUrl =>
      let windowOpts := s.config.WindowOptions
      let windowOpts := { windowOpts with Hidden := true }
      let windowOpts := { windowOpts with URL := signoutUrl }
      let tr2 := tr1 ++ [Call.newWindow windowOpts]
      match awaitCallback env started.listener s.newAuthCtx with
      | .error stuck => ⟨stuck, started.listener, tr2⟩
      | .ok ((success, err), l, calls) =>
        ⟨.returned success err, some l, tr2 ++ calls⟩

/-- The options handed to the sign-in URL builder, in order. -/
def signInArgs : List Call → List SignInOptions
  | [] => []
  | .clientSignIn o :: t => o :: signInArgs t
  | _ :: t => signInArgs t

/-- The windows opened, in order. -/
def windowsOpened : List Call → List WebviewWindowOptions
  | [] => []
  | .newWindow w :: t => w :: windowsOpened t
  | _ :: t => windowsOpened t

/-- The caller options as the specification speaks of them: absent (no
argument), nil, or set. -/
def callerOptions : List (Option SignInOptions) → Option SignInOptions
  | [] => none
  | o :: _ => o

/-- The option merge rule in the words of the specification: each field of the
caller options that is set (non-empty string, non-empty collection, non-nil
pointer) overrides the default; the default redirect URI is the bound
endpoint `u`, every other default is the zero value. -/
def mergeRule (u : String) (caller : Option SignInOptions) : SignInOptions :=
  match caller with
  | none => ⟨u, "", "", none, none, "", none⟩
  | some o =>
    ⟨if o.RedirectUri = "" then u else o.RedirectUri,
      if o.Prompt = "" then "" else o.Prompt,
      if o.FirstScreen = "" then "" else o.FirstScreen,
      if o.Identifiers.len = 0 then none else o.Identifiers,
      if o.DirectSignIn = none then none else o.DirectSignIn,
      if o.LoginHint = "" then "" else o.LoginHint,
      if mapLen o.ExtraParams = 0 then none else o.ExtraParams⟩

/-- The only sender on the `result` channel is the route closure: a value
offered on the channel is the `Result` the closure built from some request. -/
def Listener.FromRoute (c : Listener) : Prop :=
  ∀ res, c.result = some res → ∃ r, res = routeFunc c.server.handler r


/-! ## Concrete environments used to instantiate the theorems -/

/-- A machine on which port 7001 is taken and port 7002 is free. The URLs with
a path parse to their host and path, the URL without a path parses to an empty
path, and any other string is malformed. The mux accepts the patterns of the
two paths and panics on the pattern `"GET "` of the empty path; a GET route
also receives the HEAD requests for its path. -/
def demoNet : Net :=
  ⟨fun u =>
      if u = "http://127.0.0.1:7001/cb" then .ok ⟨"127.0.0.1:7001", "/cb"⟩
      else if u = "http://127.0.0.1:7002/cb" then .ok ⟨"127.0.0.1:7002", "/cb"⟩
      else if u = "http://127.0.0.1:7002/out" then .ok ⟨"127.0.0.1:7002", "/out"⟩
      else if u = "http://127.0.0.1:7002" then .ok ⟨"127.0.0.1:7002", ""⟩
      else .error (GoError.other "missing protocol scheme"),
    fun h =>
      if h = "127.0.0.1:7001" then some (GoError.other "address already in use") else none,
    fun h => h,
    fun p => decide (p = "GET /cb") || decide (p = "GET /out"),
    fun p r => decide (r.Method = "HEAD") && decide ("GET " ++ r.Path = p)⟩

/-- A callback handler that accepts every request. -/
def demoHandler : CallbackHandler := fun _ => none

/-- A service with two candidate pairs: the first on the taken port 7001, the
second on the free port 7002; no `AuthTimeout`. -/
def demoService : Service :=
  ⟨⟨some [⟨"http://127.0.0.1:7001/cb", "http://127.0.0.1:7001/cb"⟩,
      ⟨"http://127.0.0.1:7002/cb", "http://127.0.0.1:7002/out"⟩], ⟨"", false⟩, 0⟩,
    Context.withCancel Context.background⟩

/-- The service `demoService` with an `AuthTimeout` of 30 seconds. -/
def timedService : Service :=
  ⟨⟨some [⟨"http://127.0.0.1:7001/cb", "http://127.0.0.1:7001/cb"⟩,
      ⟨"http://127.0.0.1:7002/cb", "http://127.0.0.1:7002/out"⟩], ⟨"", false⟩,
      30000000000⟩,
    Context.withCancel Context.background⟩

/-- State of a context `elapsed` nanoseconds after it was built, when no
cancel function was called: a timeout context is done with
`context.DeadlineExceeded` once its timeout has elapsed, and a context is done
with the error of its parent once the parent is done. -/
def stateAfter (elapsed : Int) : Context → CtxState
  | .background => ⟨none⟩
  | .withCancel parent => stateAfter elapsed parent
  | .withTimeout parent timeout =>
    match (stateAfter elapsed parent).err with
    | some e => ⟨some e⟩
    | none => if timeout ≤ elapsed then ⟨some GoError.deadlineExceeded⟩ else ⟨none⟩

/-- The durations `time.ParseDuration` is asked for in the runs below. -/
def demoParseDuration (timeAllowed : String) : Except GoError Int :=
  if timeAllowed = "10s" then .ok 10000000000
  else if timeAllowed = "30s" then .ok 30000000000
  else .error (GoError.other "time: invalid duration")

/-- A callback request for the route of `demoNet` on port 7002. -/
def demoRequest : Request := ⟨"GET", "/cb", "code=abc&state=xyz"⟩

/-- A run in which the Logto client builds URLs, no callback arrives, nobody
closes the window or shuts the service down, and `elapsed` nanoseconds pass
before the `select` of `Await` looks at the caller context. -/
def deadlineEnv (elapsed : Int) : Env :=
  ⟨demoNet, demoHandler,
    fun o => .ok ("https://tenant.logto.app/oidc/auth?redirect_uri=" ++ o.RedirectUri),
    fun u => .ok ("https://tenant.logto.app/oidc/session/end?post_logout_redirect_uri=" ++ u),
    demoParseDuration, [], stateAfter elapsed, Arm.ctxDone⟩

/-- A run in which the Logto client builds URLs and the callback request
arrives at once. -/
def callbackEnv : Env :=
  ⟨demoNet, demoHandler,
    fun o => .ok ("https://tenant.logto.app/oidc/auth?redirect_uri=" ++ o.RedirectUri),
    fun u => .ok ("https://tenant.logto.app/oidc/session/end?post_logout_redirect_uri=" ++ u),
    demoParseDuration, [EnvEvent.request demoRequest], stateAfter 0, Arm.result⟩

/-- A run in which the Logto client fails to build any URL. -/
def brokenClientEnv : Env :=
  ⟨demoNet, demoHandler,
    fun _ => .error (GoError.other "fetch OIDC config failed"),
    fun _ => .error (GoError.other "fetch OIDC config failed"),
    demoParseDuration, [], stateAfter 0, Arm.result⟩

/-- The listener on port 7002 after the route closure offered the result of
`demoRequest`. -/
def demoListener : Listener :=
  ⟨⟨"127.0.0.1:7002", "GET /cb", demoNet.routes "GET /cb", demoHandler, false⟩,
    ⟨"127.0.0.1:7002", false⟩, some (routeFunc demoHandler demoRequest), ⟨none⟩⟩

/-- The zero value `Store{}`, whose map is nil. -/
def zeroStore : Store := ⟨none⟩

/-! ## Lemmas on traces and on the candidate loop -/

theorem parsedURLs_append (a b : List NetEvent) :
    parsedURLs (a ++ b) = parsedURLs a ++ parsedURLs b := by
  induction a with
  | nil => rfl
  | cons e t ih => cases e <;> simp [parsedURLs, ih]

theorem listenedHosts_append (a b : List NetEvent) :
    listenedHosts (a ++ b) = listenedHosts a ++ listenedHosts b := by
  induction a with
  | nil => rfl
  | cons e t ih => cases e <;> simp [listenedHosts, ih]

/-- Candidates that parse and fail to bind are skipped: the loop over
`pre ++ rest` ends as the loop over `rest` does, entered with the bind error of
the last candidate of `pre` (or with the incoming `lastErr` when `pre` is
empty), after one parse and one listen per candidate of `pre`. -/
theorem loop_skip (net : Net) (handler : CallbackHandler) (pre rest : List String)
    (hpre : ∀ u ∈ pre, ∃ r e, net.parse u = .ok r ∧ net.listen r.Host = some e) :
    ∀ lastErr : Option GoError, ∃ (lastErr1 : Option GoError) (tr : List NetEvent),
      StartListener.loop net handler (pre ++ rest) lastErr
          = ⟨(StartListener.loop net handler rest lastErr1).listener,
              (StartListener.loop net handler rest lastErr1).url,
              (StartListener.loop net handler rest lastErr1).err,
              tr ++ (StartListener.loop net handler rest lastErr1).trace,
              (StartListener.loop net handler rest lastErr1).panicked,
              (StartListener.loop net handler rest lastErr1).leaked⟩ ∧
      parsedURLs tr = pre ∧ (listenedHosts tr).length = pre.length ∧
      (pre = [] → lastErr1 = lastErr) ∧
      (∀ h : pre ≠ [], ∃ r e, net.parse (pre.getLast h) = .ok r ∧
          net.listen r.Host = some e ∧ lastErr1 = some e) := by
  induction pre with
  | nil =>
    intro lastErr
    exact ⟨lastErr, [], rfl, rfl, rfl, fun _ => rfl, fun h => absurd rfl h⟩
  | cons u pre ih =>
    intro lastErr
    obtain ⟨r, e, hp, hl⟩ := hpre u (List.mem_cons_self u pre)
    have hpre1 : ∀ v ∈ pre, ∃ r e, net.parse v = .ok r ∧ net.listen r.Host = some e :=
      fun v hv => hpre v (List.mem_cons_of_mem u hv)
    obtain ⟨l1, tr, h1, h5, h6, h7, h8⟩ := ih hpre1 (some e)
    refine ⟨l1, .parse u :: .listen r.Host :: tr, ?_, ?_, ?_, ?_, ?_⟩
    · have hstep : StartListener.loop net handler (u :: (pre ++ rest)) lastErr
          = ⟨(StartListener.loop net handler (pre ++ rest) (some e)).listener,
              (StartListener.loop net handler (pre ++ rest) (some e)).url,
              (StartListener.loop net handler (pre ++ rest) (some e)).err,
              .parse u :: .listen r.Host ::
                (StartListener.loop net handler (pre ++ rest) (some e)).trace,
              (StartListener.loop net handler (pre ++ rest) (some e)).panicked,
              (StartListener.loop net handler (pre ++ rest) (some e)).leaked⟩ := by
        simp only [StartListener.loop, hp, hl]
      rw [List.cons_append, hstep, h1]
      rfl
    · simp [parsedURLs, h5]
    · simp [listenedHosts, parsedURLs, h6]
    · intro h; cases h
    · intro _
      by_cases hne : pre = []
      · subst hne
        exact ⟨r, e, by simpa using hp, hl, h7 rfl⟩
      · obtain ⟨r1, e1, hp1, hl1, he1⟩ := h8 hne
        exact ⟨r1, e1, by rw [List.getLast_cons hne]; exact hp1, hl1, he1⟩

/-- A listener returned by the candidate loop has the given handler and an
empty channel, and comes with a nil error from a call that did not panic. -/
theorem loop_listener_fresh (net : Net) (handler : CallbackHandler) :
    ∀ (urls : List String) (lastErr : Option GoError) (l : Listener),
      (StartListener.loop net handler urls lastErr).listener = some l →
      l.result = none ∧ l.server.handler = handler ∧
      (StartListener.loop net handler urls lastErr).err = none ∧
      (StartListener.loop net handler urls lastErr).panicked = false := by
  intro urls
  induction urls with
  | nil => intro lastErr l h; simp [StartListener.loop] at h
  | cons u rest ih =>
    intro lastErr l h
    unfold StartListener.loop at h ⊢
    split at h
    · simp at h
    · split at h
      · exact ih _ l h
      · simp only at h ⊢
        split at h
        · simp only [Option.some.injEq] at h
          subst h
          rename_i hmux
          simp [hmux]
        · simp at h

theorem FromRoute_of_empty (c : Listener) (h : c.result = none) : c.FromRoute := by
  intro res hres
  rw [h] at hres
  cases hres

theorem FromRoute_serve (c : Listener) (r : Request) (h : c.FromRoute) :
    (c.serve r).FromRoute := by
  unfold Listener.serve
  split
  · exact h
  · split
    · split
      · exact h
      · intro res hres
        simp only [Option.some.injEq] at hres
        exact ⟨r, hres.symm⟩
    · exact h

theorem FromRoute_Close (c : Listener) (h : c.FromRoute) : c.Close.FromRoute := h

theorem FromRoute_runEvents :
    ∀ (evs : List EnvEvent) (c : Listener) (closed : Bool), c.FromRoute →
      (runEvents evs c closed).1.FromRoute := by
  intro evs
  induction evs with
  | nil => intro c closed h; exact h
  | cons ev rest ih =>
    intro c closed h
    cases ev with
    | request r => exact ih _ _ (FromRoute_serve c r h)
    | windowClosing => exact ih _ _ (FromRoute_Close c h)

/-- On a listener whose channel is fed by the route closure only, whatever
`Await` returns has its flag set exactly when its error is nil. -/
theorem Await_flag_iff (c : Listener) (ctx : CtxState) (pick : Arm) (h : c.FromRoute)
    (ok : Bool) (err : Option GoError) (c1 : Listener)
    (hret : c.Await ctx pick = some ((ok, err), c1)) : ok = true ↔ err = none := by
  unfold Listener.Await at hret
  cases pick with
  | result =>
    simp only at hret
    split at hret
    · rename_i res hres
      obtain ⟨r, hr⟩ := h res hres
      simp only [Option.some.injEq, Prod.mk.injEq] at hret
      obtain ⟨⟨h1, h2⟩, -⟩ := hret
      subst hr
      rw [← h1, ← h2]
      simp [routeFunc]
    · cases hret
  | ctxDone =>
    simp only at hret
    split at hret
    · simp only [Option.some.injEq, Prod.mk.injEq] at hret
      obtain ⟨⟨h1, h2⟩, -⟩ := hret
      rw [← h1, ← h2]
      simp
    · cases hret
  | lifecycleDone =>
    simp only at hret
    split at hret
    · simp only [Option.some.injEq, Prod.mk.injEq] at hret
      obtain ⟨⟨h1, h2⟩, -⟩ := hret
      rw [← h1, ← h2]
      simp
    · cases hret

/-! ## StartListener -/

/-- C1, as amended: when every candidate before `c` parses and fails to bind,
`c` parses and binds, and the mux accepts the route pattern `"GET " ++ path`
of `c`, `StartListener` returns (it does not panic) a nil error, the URL `c`
and a fresh open listener whose socket is the one bound for the host of `c`;
it parses exactly the candidates up to `c` and makes one bind attempt for each
of them, the last on the host of `c`, so nothing after `c` is attempted. -/
theorem StartListener_first_bindable (net : Net) (handler : CallbackHandler)
    (pre post : List String) (c : String) (route : URL)
    (hpre : ∀ u ∈ pre, ∃ r e, net.parse u = .ok r ∧ net.listen r.Host = some e)
    (hparse : net.parse c = .ok route) (hbind : net.listen route.Host = none)
    (hmux : net.handleFunc ("GET " ++ route.Path) = true) :
    (StartListener net handler (some (pre ++ c :: post))).panicked = false ∧
    (StartListener net handler (some (pre ++ c :: post))).err = none ∧
    (StartListener net handler (some (pre ++ c :: post))).url = c ∧
    (StartListener net handler (some (pre ++ c :: post))).listener
      = some ⟨⟨route.Host, "GET " ++ route.Path, net.routes ("GET " ++ route.Path),
            handler, false⟩,
          ⟨net.addr route.Host, false⟩, none, ⟨none⟩⟩ ∧
    parsedURLs (StartListener net handler (some (pre ++ c :: post))).trace = pre ++ [c] ∧
    (listenedHosts (StartListener net handler (some (pre ++ c :: post))).trace).length
      = pre.length + 1 ∧
    (listenedHosts (StartListener net handler (some (pre ++ c :: post))).trace).getLast?
      = some route.Host := by
  obtain ⟨l1, tr, hloop, h5, h6, -, -⟩ :=
    loop_skip net handler pre (c :: post) hpre none
  have hstep : ∀ le, StartListener.loop net handler (c :: post) le
      = ⟨some ⟨⟨route.Host, "GET " ++ route.Path, net.routes ("GET " ++ route.Path),
            handler, false⟩,
          ⟨net.addr route.Host, false⟩, none, ⟨none⟩⟩, c, none,
          [.parse c, .listen route.Host, .handleFunc ("GET " ++ route.Path),
            .serve route.Host ("GET " ++ route.Path)], false, none⟩ := by
    intro le
    simp only [StartListener.loop, hparse, hbind, hmux, if_true]
  simp only [StartListener, GoSlice.elems]
  rw [hloop, hstep l1]
  refine ⟨rfl, rfl, rfl, rfl, ?_, ?_, ?_⟩
  · simp [parsedURLs_append, parsedURLs, h5]
  · simp [listenedHosts_append, listenedHosts, h6]
  · simp [listenedHosts_append, listenedHosts]

/-- C1 at a concrete input: port 7001 is taken, port 7002 is free and its
candidate has the path `/cb`, and a malformed third candidate is never looked
at. -/
theorem StartListener_first_bindable_witness :
    (StartListener demoNet demoHandler
      (some (["http://127.0.0.1:7001/cb"] ++ "http://127.0.0.1:7002/cb" :: ["::bad"]))).panicked
      = false ∧
    (StartListener demoNet demoHandler
      (some (["http://127.0.0.1:7001/cb"] ++ "http://127.0.0.1:7002/cb" :: ["::bad"]))).err
      = none ∧
    (StartListener demoNet demoHandler
      (some (["http://127.0.0.1:7001/cb"] ++ "http://127.0.0.1:7002/cb" :: ["::bad"]))).url
      = "http://127.0.0.1:7002/cb" :=
  have h := StartListener_first_bindable demoNet demoHandler
    ["http://127.0.0.1:7001/cb"] ["::bad"] "http://127.0.0.1:7002/cb" ⟨"127.0.0.1:7002", "/cb"⟩
    (by
      intro u hu
      rw [List.mem_singleton] at hu
      subst hu
      exact ⟨⟨"127.0.0.1:7001", "/cb"⟩, GoError.other "address already in use",
        by simp [demoNet], by decide⟩)
    (by simp [demoNet]) (by decide) (by decide)
  ⟨h.1, h.2.1, h.2.2.1⟩

/-- C1 as stated fails: the single candidate `http://127.0.0.1:7002` parses (to
an empty path) and its host binds, so it is the first bindable candidate of a
non-empty list in which every candidate parses; yet `StartListener` does not
return a nil error with that URL: registering the pattern `"GET "` panics, no
listener and no URL come back, and the bound socket is left open. -/
theorem StartListener_pathless_candidate_panics :
    demoNet.parse "http://127.0.0.1:7002" = .ok ⟨"127.0.0.1:7002", ""⟩ ∧
    demoNet.listen "127.0.0.1:7002" = none ∧
    (StartListener demoNet demoHandler (some ["http://127.0.0.1:7002"])).panicked = true ∧
    (StartListener demoNet demoHandler (some ["http://127.0.0.1:7002"])).listener.isNone
      = true ∧
    (StartListener demoNet demoHandler (some ["http://127.0.0.1:7002"])).url
      ≠ "http://127.0.0.1:7002" ∧
    (StartListener demoNet demoHandler (some ["http://127.0.0.1:7002"])).leaked
      = some ⟨"127.0.0.1:7002", false⟩ ∧
    (StartListener demoNet demoHandler (some ["http://127.0.0.1:7002"])).trace
      = [.parse "http://127.0.0.1:7002", .listen "127.0.0.1:7002", .handleFunc "GET "] :=
  ⟨rfl, rfl, rfl, rfl, by decide, rfl, rfl⟩

/-- C2: when the list is not empty and every candidate parses and fails to
bind, `StartListener` returns a nil listener, the empty URL and the bind error
of the last candidate of the list. -/
theorem StartListener_all_occupied (net : Net) (handler : CallbackHandler)
    (urls : List String) (hne : urls ≠ [])
    (hall : ∀ u ∈ urls, ∃ r e, net.parse u = .ok r ∧ net.listen r.Host = some e) :
    ∃ r e, net.parse (urls.getLast hne) = .ok r ∧ net.listen r.Host = some e ∧
      (StartListener net handler (some urls)).err = some e ∧
      (StartListener net handler (some urls)).listener = none ∧
      (StartListener net handler (some urls)).url = "" ∧
      parsedURLs (StartListener net handler (some urls)).trace = urls := by
  obtain ⟨l1, tr, hloop, h5, -, -, h8⟩ := loop_skip net handler urls [] hall none
  obtain ⟨r, e, hp, hl, he⟩ := h8 hne
  have hrun : StartListener net handler (some urls)
      = ⟨none, "", some e, tr, false, none⟩ := by
    have := hloop
    simp only [List.append_nil, StartListener.loop] at this
    simp only [StartListener, GoSlice.elems, this, he]
  refine ⟨r, e, hp, hl, ?_, ?_, ?_, ?_⟩
  · rw [hrun]
  · rw [hrun]
  · rw [hrun]
  · rw [hrun]; simp [h5]

/-- C2 at a concrete input: two candidates on the taken port 7001. -/
theorem StartListener_all_occupied_witness :
    ∃ r e, demoNet.parse
        (["http://127.0.0.1:7001/cb", "http://127.0.0.1:7001/cb"].getLast (by decide)) = .ok r ∧
      demoNet.listen r.Host = some e ∧
      (StartListener demoNet demoHandler
        (some ["http://127.0.0.1:7001/cb", "http://127.0.0.1:7001/cb"])).err = some e ∧
      (StartListener demoNet demoHandler
        (some ["http://127.0.0.1:7001/cb", "http://127.0.0.1:7001/cb"])).listener = none ∧
      (StartListener demoNet demoHandler
        (some ["http://127.0.0.1:7001/cb", "http://127.0.0.1:7001/cb"])).url = "" ∧
      parsedURLs (StartListener demoNet demoHandler
        (some ["http://127.0.0.1:7001/cb", "http://127.0.0.1:7001/cb"])).trace
        = ["http://127.0.0.1:7001/cb", "http://127.0.0.1:7001/cb"] :=
  StartListener_all_occupied demoNet demoHandler
    ["http://127.0.0.1:7001/cb", "http://127.0.0.1:7001/cb"] (by decide)
    (by
      intro u hu
      have hu1 : u = "http://127.0.0.1:7001/cb" := by
        rcases List.mem_cons.1 hu with h | h
        · exact h
        · exact List.mem_singleton.1 h
      subst hu1
      exact ⟨⟨"127.0.0.1:7001", "/cb"⟩, GoError.other "address already in use",
        by simp [demoNet], by decide⟩)

/-- C3: when every candidate before `bad` parses and fails to bind and `bad`
does not parse, `StartListener` returns the parse error of `bad`, a nil
listener and the empty URL; it parses exactly the candidates up to `bad` and
makes bind attempts only for the candidates before it, whatever follows. -/
theorem StartListener_parse_error_fatal (net : Net) (handler : CallbackHandler)
    (pre post : List String) (bad : String) (perr : GoError)
    (hpre : ∀ u ∈ pre, ∃ r e, net.parse u = .ok r ∧ net.listen r.Host = some e)
    (hbad : net.parse bad = .error perr) :
    (StartListener net handler (some (pre ++ bad :: post))).err = some perr ∧
    (StartListener net handler (some (pre ++ bad :: post))).listener = none ∧
    (StartListener net handler (some (pre ++ bad :: post))).url = "" ∧
    parsedURLs (StartListener net handler (some (pre ++ bad :: post))).trace = pre ++ [bad] ∧
    (listenedHosts (StartListener net handler (some (pre ++ bad :: post))).trace).length
      = pre.length := by
  obtain ⟨l1, tr, hloop, h5, h6, -, -⟩ :=
    loop_skip net handler pre (bad :: post) hpre none
  have hstep : ∀ le, StartListener.loop net handler (bad :: post) le
      = ⟨none, "", some perr, [.parse bad], false, none⟩ := by
    intro le
    simp only [StartListener.loop, hbad]
  simp only [StartListener, GoSlice.elems]
  rw [hloop, hstep l1]
  refine ⟨rfl, rfl, rfl, ?_, ?_⟩
  · simp [parsedURLs_append, parsedURLs, h5]
  · simp [listenedHosts_append, listenedHosts, h6]

/-- C3 at a concrete input: a taken port, then a malformed candidate, then a
free port that is never tried. -/
theorem StartListener_parse_error_fatal_witness :
    (StartListener demoNet demoHandler
      (some (["http://127.0.0.1:7001/cb"] ++ "::bad" :: ["http://127.0.0.1:7002/cb"]))).err
      = some (GoError.other "missing protocol scheme") ∧
    (StartListener demoNet demoHandler
      (some (["http://127.0.0.1:7001/cb"] ++ "::bad" :: ["http://127.0.0.1:7002/cb"]))).listener
      = none :=
  have h := StartListener_parse_error_fatal demoNet demoHandler
    ["http://127.0.0.1:7001/cb"] ["http://127.0.0.1:7002/cb"] "::bad"
    (GoError.other "missing protocol scheme")
    (by
      intro u hu
      rw [List.mem_singleton] at hu
      subst hu
      exact ⟨⟨"127.0.0.1:7001", "/cb"⟩, GoError.other "address already in use",
        by simp [demoNet], by decide⟩)
    (by simp [demoNet])
  ⟨h.1, h.2.1⟩

/-- C4: on an empty candidate list, nil or not, `StartListener` returns a nil
listener, the empty URL and a nil error, having made no call; and `SignIn` on a
configuration without redirect addresses, with a URL builder that succeeds,
goes on to open a window and panics in `Await` on the nil listener. -/
theorem StartListener_empty_nil_error (net : Net) (handler : CallbackHandler) :
    (StartListener net handler (some [])).err = none ∧
    (StartListener net handler (some [])).listener = none ∧
    (StartListener net handler (some [])).url = "" ∧
    (StartListener net handler none).err = none ∧
    (StartListener net handler none).listener = none ∧
    (∀ (w : WebviewWindowOptions) (t : Int) (ctx : Context) (e : Env)
        (signinUrl : String) (opts : List (Option SignInOptions)),
      (Service.SignIn ⟨⟨some [], w, t⟩, ctx⟩
        ⟨net, handler, fun _ => .ok signinUrl, e.clientSignOut, e.parseDuration, e.events,
          e.ctxState, e.pick⟩ opts).ret = Ret.panicked) :=
  ⟨rfl, rfl, rfl, rfl, rfl, fun _ _ _ _ _ _ => rfl⟩

/-! ## Await -/

/-- C5: on a listener whose channel is fed by the route closure only:
if the closure ran the handler on `r` and offered its result (the open server
got the matching request `r`), and the result case wins, `Await` returns
`(handler r == nil, handler r)`, which is `(true, nil)` when the handler
returns nil; if the caller context is done and
its case wins, `Await` returns `(false, ctx.Err())`, and that case is the only
one that can win when nothing was offered and the lifecycle context is live;
if the lifecycle context is done and its case wins, `Await` returns
`(false, c.ctx.Err())`; and whatever case wins, the flag is true only if the
error is nil. -/
theorem Await_by_arm (c : Listener) (ctx : CtxState) (hc : c.FromRoute) :
    (∀ r, c.result = none → c.server.closed = false →
      r.Method ++ " " ++ r.Path = c.server.pattern →
      ((c.serve r).Await ctx Arm.result).map Prod.fst
        = some (c.server.handler r == none, c.server.handler r)) ∧
    (∀ r, c.result = some (routeFunc c.server.handler r) →
      (c.Await ctx Arm.result).map Prod.fst
        = some (c.server.handler r == none, c.server.handler r)) ∧
    (∀ r, c.result = some (routeFunc c.server.handler r) → c.server.handler r = none →
      (c.Await ctx Arm.result).map Prod.fst = some (true, none)) ∧
    (∀ e, ctx.err = some e →
      (c.Await ctx Arm.ctxDone).map Prod.fst = some (false, ctx.err)) ∧
    (∀ e pick out, ctx.err = some e → c.result = none → c.ctx.err = none →
      c.Await ctx pick = some out → out.1 = (false, ctx.err)) ∧
    (∀ e, c.ctx.err = some e →
      (c.Await ctx Arm.lifecycleDone).map Prod.fst = some (false, c.ctx.err)) ∧
    (∀ pick ok err c1, c.Await ctx pick = some ((ok, err), c1) → ok = true → err = none) := by
  refine ⟨?_, ?_, ?_, ?_, ?_, ?_, ?_⟩
  · intro r hnone hopen hmatch
    simp [Listener.serve, hnone, hopen, hmatch, Listener.Await, routeFunc]
  · intro r hr
    simp [Listener.Await, hr, routeFunc]
  · intro r hr hnil
    simp [Listener.Await, hr, routeFunc, hnil]
  · intro e he
    simp [Listener.Await, he]
  · intro e pick out he hres hlife hret
    cases pick with
    | result => simp [Listener.Await, hres] at hret
    | ctxDone =>
      simp only [Listener.Await, he, Option.some.injEq] at hret
      rw [← hret, he]
    | lifecycleDone => simp [Listener.Await, hlife] at hret
  · intro e he
    simp [Listener.Await, he]
  · intro pick ok err c1 hret hok
    exact (Await_flag_iff c ctx pick hc ok err c1 hret).1 hok

/-- C5 at a concrete input: the listener `StartListener` returns on the free
port, after the server goroutine got a matching request whose handler returns
nil; the result case wins and `Await` returns `(true, nil)`. -/
theorem Await_by_arm_witness :
    ((StartListener demoNet demoHandler (some ["http://127.0.0.1:7002/cb"])).listener.map
      (fun l => l.serve demoRequest)).map (fun l => (l.result, l.server.pattern))
      = some (demoListener.result, demoListener.server.pattern) ∧
    (demoListener.Await ⟨none⟩ Arm.result).map Prod.fst = some (true, none) :=
  ⟨rfl,
    (Await_by_arm demoListener ⟨none⟩
      (fun _ hres => ⟨demoRequest, (Option.some.inj hres).symm⟩)).2.2.1 demoRequest rfl rfl⟩

/-! ## Sign-in and sign-out runs -/

theorem signInArgs_append (a b : List Call) :
    signInArgs (a ++ b) = signInArgs a ++ signInArgs b := by
  induction a with
  | nil => rfl
  | cons e t ih => cases e <;> simp [signInArgs, ih]

theorem signInArgs_net (tr : List NetEvent) : signInArgs (tr.map Call.net) = [] := by
  induction tr with
  | nil => rfl
  | cons e t ih => simp [signInArgs, ih]

/-- The shared block returns what `Await` returns on the listener as the
events of the environment left it. -/
theorem awaitCallback_of_Await (env : Env) (l : Listener) (ctx : Context)
    (res : Bool × Option GoError) (l2 : Listener)
    (h : (runEvents env.events l false).1.Await (env.ctxState ctx) env.pick = some (res, l2)) :
    awaitCallback env (some l) ctx
      = .ok (res, l2,
          if !(runEvents env.events l false).2 then [Call.windowClose] else []) := by
  simp only [awaitCallback, h]

/-- What `Await` returns on a listener made by `StartListener`, after the
events of the environment, has its flag set exactly when its error is nil. -/
theorem started_Await_flag_iff (env : Env) (net : Net) (handler : CallbackHandler)
    (urls : GoSlice String) (l : Listener) (ctx : CtxState) (pick : Arm)
    (r : Bool) (e : Option GoError)
    (hl : (StartListener net handler urls).listener = some l)
    (ha : ((runEvents env.events l false).1.Await ctx pick).map Prod.fst = some (r, e)) :
    r = true ↔ e = none := by
  have hfresh := (loop_listener_fresh net handler _ _ l hl).1
  have hinv := FromRoute_runEvents env.events l false (FromRoute_of_empty l hfresh)
  cases hA : (runEvents env.events l false).1.Await ctx pick with
  | none => rw [hA] at ha; cases ha
  | some out =>
    obtain ⟨⟨r1, e1⟩, l2⟩ := out
    rw [hA] at ha
    simp only [Option.map_some', Option.some.injEq, Prod.mk.injEq] at ha
    obtain ⟨hr, he⟩ := ha
    subst hr; subst he
    exact Await_flag_iff _ _ _ hinv _ _ l2 hA

/-- A run of `SignIn` whose listener started, whose URL builder succeeded
and whose `Await` returned, returns what `Await` returned. -/
theorem SignIn_returns_Await (s : Service) (env : Env) (opts : List (Option SignInOptions))
    (l : Listener) (u : String) (r : Bool) (e : Option GoError)
    (hl : (StartListener env.net env.handleSignInCallback s.config.SignInURIs.1).listener
      = some l)
    (hb : env.clientSignIn (Service.SignIn.clientOpts
      (StartListener env.net env.handleSignInCallback s.config.SignInURIs.1).url opts) = .ok u)
    (ha : ((runEvents env.events l false).1.Await (env.ctxState s.newAuthCtx) env.pick).map
      Prod.fst = some (r, e)) :
    (s.SignIn env opts).ret = Ret.returned r e := by
  obtain ⟨-, -, herr, hpan⟩ := loop_listener_fresh env.net env.handleSignInCallback _ _ l hl
  cases hA : (runEvents env.events l false).1.Await (env.ctxState s.newAuthCtx) env.pick with
  | none => rw [hA] at ha; cases ha
  | some out =>
    obtain ⟨⟨r1, e1⟩, l2⟩ := out
    rw [hA] at ha
    simp only [Option.map_some', Option.some.injEq, Prod.mk.injEq] at ha
    obtain ⟨hr, he⟩ := ha
    subst hr; subst he
    have hcb := awaitCallback_of_Await env l s.newAuthCtx (r1, e1) l2 hA
    have herr1 : (StartListener env.net env.handleSignInCallback s.config.SignInURIs.1).err
        = none := herr
    have hpan1 : (StartListener env.net env.handleSignInCallback
        s.config.SignInURIs.1).panicked = false := hpan
    simp only [Service.SignIn, hpan1, herr1, hb, hl, hcb, Bool.false_eq_true, if_false]

/-- A run of `TryAutoSignIn` whose duration parsed, whose listener started,
whose URL builder succeeded and whose `Await` returned `(r, e)`, returns
`(false, nil)` when `e` is or wraps one of the two context sentinels and
`(r, e)` otherwise. -/
theorem TryAutoSignIn_maps_Await (s : Service) (env : Env) (timeAllowed : String) (d : Int)
    (l : Listener) (u : String) (r : Bool) (e : Option GoError)
    (hd : env.parseDuration timeAllowed = .ok d)
    (hl : (StartListener env.net env.handleSignInCallback s.config.SignInURIs.1).listener
      = some l)
    (hb : env.clientSignIn
      ⟨(StartListener env.net env.handleSignInCallback s.config.SignInURIs.1).url,
        "", "", none, none, "", none⟩ = .ok u)
    (ha : ((runEvents env.events l false).1.Await
      (env.ctxState (Context.withTimeout s.newAuthCtx d)) env.pick).map Prod.fst
        = some (r, e)) :
    (s.TryAutoSignIn env timeAllowed).ret
      = (if errorsIs e GoError.deadlineExceeded || errorsIs e GoError.canceled
          then Ret.returned false none else Ret.returned r e) := by
  obtain ⟨-, -, herr, hpan⟩ := loop_listener_fresh env.net env.handleSignInCallback _ _ l hl
  cases hA : (runEvents env.events l false).1.Await
      (env.ctxState (Context.withTimeout s.newAuthCtx d)) env.pick with
  | none => rw [hA] at ha; cases ha
  | some out =>
    obtain ⟨⟨r1, e1⟩, l2⟩ := out
    rw [hA] at ha
    simp only [Option.map_some', Option.some.injEq, Prod.mk.injEq] at ha
    obtain ⟨hr, he⟩ := ha
    subst hr; subst he
    have hcb := awaitCallback_of_Await env l (Context.withTimeout s.newAuthCtx d) (r1, e1) l2 hA
    have herr1 : (StartListener env.net env.handleSignInCallback s.config.SignInURIs.1).err
        = none := herr
    have hpan1 : (StartListener env.net env.handleSignInCallback
        s.config.SignInURIs.1).panicked = false := hpan
    simp only [Service.TryAutoSignIn, hd, hpan1, herr1, hb, hl, hcb, Bool.false_eq_true,
      if_false]
    split <;> rfl

/-- The options `SignIn` builds are those of the merge rule. -/
theorem clientOpts_eq_mergeRule (u : String) (opts : List (Option SignInOptions)) :
    Service.SignIn.clientOpts u opts = mergeRule u (callerOptions opts) := by
  cases opts with
  | nil => rfl
  | cons o rest =>
    cases o with
    | none => rfl
    | some o =>
      obtain ⟨ru, pr, fs, ids, dsi, lh, ep⟩ := o
      simp only [Service.SignIn.clientOpts, callerOptions, mergeRule]
      by_cases h1 : ru = "" <;> by_cases h2 : pr = "" <;> by_cases h3 : fs = "" <;>
        by_cases h4 : GoSlice.len ids = 0 <;> by_cases h5 : dsi = none <;>
        by_cases h6 : lh = "" <;> by_cases h7 : mapLen ep = 0 <;>
        simp [h1, h2, h3, h4, h5, h6, h7, Nat.pos_iff_ne_zero]

/-- The sign-in URL builder is called once in a run of `SignIn` whose
`StartListener` returned a nil error, with the options `SignIn` built. -/
theorem SignIn_builder_arg (s : Service) (env : Env) (opts : List (Option SignInOptions))
    (hpan : (StartListener env.net env.handleSignInCallback s.config.SignInURIs.1).panicked
      = false)
    (hstart : (StartListener env.net env.handleSignInCallback s.config.SignInURIs.1).err = none) :
    signInArgs (s.SignIn env opts).trace
      = [Service.SignIn.clientOpts
          (StartListener env.net env.handleSignInCallback s.config.SignInURIs.1).url opts] := by
  unfold Service.SignIn
  simp only [hpan, hstart, Bool.false_eq_true, if_false]
  split
  · simp [signInArgs_append, signInArgs_net, signInArgs]
  · split
    · simp [signInArgs_append, signInArgs_net, signInArgs]
    · rename_i calls _
      have hcalls : signInArgs calls = [] := by
        rename_i hawait
        unfold awaitCallback at hawait
        split at hawait
        · cases hawait
        · simp only at hawait
          split at hawait
          · cases hawait
          · simp only [Except.ok.injEq, Prod.mk.injEq] at hawait
            obtain ⟨-, -, hc⟩ := hawait
            subst hc
            split <;> rfl
      simp [signInArgs_append, signInArgs_net, signInArgs, hcalls]

/-- C6: take a run of `SignIn` and a run of `TryAutoSignIn` in each of which the
listener started, the URL builder succeeded (and, for `TryAutoSignIn`, the
duration parsed), and `Listener.Await`, called on that listener as the events
of the run left it, with the state of the context the operation built and the
case the scheduler picked, returned the same pair `(r, e)`. Then `SignIn`
returns `(r, e)`; `TryAutoSignIn` returns `(false, nil)` if and only if `e` is
or wraps `context.DeadlineExceeded` or `context.Canceled`, and returns
`(false, nil)` in that case and `(r, e)`, as `SignIn` does, otherwise. -/
theorem signIn_variants_result_mapping (s1 s2 : Service) (env1 env2 : Env)
    (opts : List (Option SignInOptions)) (timeAllowed : String) (d : Int)
    (l1 l2 : Listener) (u1 u2 : String) (r : Bool) (e : Option GoError)
    (hl1 : (StartListener env1.net env1.handleSignInCallback s1.config.SignInURIs.1).listener
      = some l1)
    (hb1 : env1.clientSignIn (Service.SignIn.clientOpts
      (StartListener env1.net env1.handleSignInCallback s1.config.SignInURIs.1).url opts)
        = .ok u1)
    (ha1 : ((runEvents env1.events l1 false).1.Await
      (env1.ctxState s1.newAuthCtx) env1.pick).map Prod.fst = some (r, e))
    (hd : env2.parseDuration timeAllowed = .ok d)
    (hl2 : (StartListener env2.net env2.handleSignInCallback s2.config.SignInURIs.1).listener
      = some l2)
    (hb2 : env2.clientSignIn
      ⟨(StartListener env2.net env2.handleSignInCallback s2.config.SignInURIs.1).url,
        "", "", none, none, "", none⟩ = .ok u2)
    (ha2 : ((runEvents env2.events l2 false).1.Await
      (env2.ctxState (Context.withTimeout s2.newAuthCtx d)) env2.pick).map Prod.fst
        = some (r, e)) :
    (s1.SignIn env1 opts).ret = Ret.returned r e ∧
    ((s2.TryAutoSignIn env2 timeAllowed).ret = Ret.returned false none ↔
      (errorsIs e GoError.deadlineExceeded = true ∨ errorsIs e GoError.canceled = true)) ∧
    (s2.TryAutoSignIn env2 timeAllowed).ret
      = (if errorsIs e GoError.deadlineExceeded || errorsIs e GoError.canceled
          then Ret.returned false none else (s1.SignIn env1 opts).ret) := by
  have hs := SignIn_returns_Await s1 env1 opts l1 u1 r e hl1 hb1 ha1
  have ht := TryAutoSignIn_maps_Await s2 env2 timeAllowed d l2 u2 r e hd hl2 hb2 ha2
  have hflag := started_Await_flag_iff env2 env2.net env2.handleSignInCallback
    s2.config.SignInURIs.1 l2 _ _ r e hl2 ha2
  refine ⟨hs, ?_, by rw [ht, hs]⟩
  rw [ht]
  by_cases hmask : (errorsIs e GoError.deadlineExceeded || errorsIs e GoError.canceled) = true
  · simp only [hmask, if_true, true_iff]
    simpa using hmask
  · simp only [hmask, if_false]
    constructor
    · intro heq
      have hr : r = false := by injection heq
      have he : e = none := by injection heq
      have := hflag.2 he
      rw [hr] at this
      cases this
    · intro h
      exfalso
      apply hmask
      simpa using h

/-- C6 at two concrete inputs. When no callback arrives, `SignIn`, configured
with an `AuthTimeout` of 30 seconds, sees its context 30 seconds later and
returns the deadline error, and `TryAutoSignIn("10s")` sees its context 10
seconds later, when only its own timeout has elapsed, and returns
`(false, nil)`. When the callback arrives at once and its handler returns nil,
both return `(true, nil)`. -/
theorem signIn_variants_result_mapping_witness :
    (timedService.SignIn (deadlineEnv 30000000000) []).ret
      = Ret.returned false (some GoError.deadlineExceeded) ∧
    (timedService.TryAutoSignIn (deadlineEnv 10000000000) "10s").ret
      = Ret.returned false none ∧
    (timedService.SignIn callbackEnv []).ret = Ret.returned true none ∧
    (timedService.TryAutoSignIn callbackEnv "10s").ret = Ret.returned true none :=
  have hc := signIn_variants_result_mapping timedService timedService
    callbackEnv callbackEnv [] "10s" 10000000000
    ⟨⟨"127.0.0.1:7002", "GET /cb", demoNet.routes "GET /cb", demoHandler, false⟩,
      ⟨"127.0.0.1:7002", false⟩, none, ⟨none⟩⟩
    ⟨⟨"127.0.0.1:7002", "GET /cb", demoNet.routes "GET /cb", demoHandler, false⟩,
      ⟨"127.0.0.1:7002", false⟩, none, ⟨none⟩⟩
    "https://tenant.logto.app/oidc/auth?redirect_uri=http://127.0.0.1:7002/cb"
    "https://tenant.logto.app/oidc/auth?redirect_uri=http://127.0.0.1:7002/cb"
    true none rfl rfl rfl rfl rfl rfl rfl
  have h := signIn_variants_result_mapping timedService timedService
    (deadlineEnv 30000000000) (deadlineEnv 10000000000) [] "10s" 10000000000
    ⟨⟨"127.0.0.1:7002", "GET /cb", demoNet.routes "GET /cb", demoHandler, false⟩,
      ⟨"127.0.0.1:7002", false⟩, none, ⟨none⟩⟩
    ⟨⟨"127.0.0.1:7002", "GET /cb", demoNet.routes "GET /cb", demoHandler, false⟩,
      ⟨"127.0.0.1:7002", false⟩, none, ⟨none⟩⟩
    "https://tenant.logto.app/oidc/auth?redirect_uri=http://127.0.0.1:7002/cb"
    "https://tenant.logto.app/oidc/auth?redirect_uri=http://127.0.0.1:7002/cb"
    false (some GoError.deadlineExceeded) rfl rfl rfl rfl rfl rfl rfl
  ⟨h.1, h.2.1.2 (Or.inl rfl), hc.1, hc.2.2.trans hc.1⟩

/-- C7: a run on a machine where port 7002 is free and the URL builder fails.
`SignIn`, `TryAutoSignIn` and `SignOut` each return `(false, the builder error)`
and open no window, and each leaves its listener as `StartListener` made it:
server not closed, socket not released, lifecycle context not cancelled. -/
theorem url_build_failure_leaves_listener_open :
    (demoService.SignIn brokenClientEnv []).ret
      = Ret.returned false (some (GoError.other "fetch OIDC config failed")) ∧
    windowsOpened (demoService.SignIn brokenClientEnv []).trace = [] ∧
    (demoService.SignIn brokenClientEnv []).listener.map
        (fun l => (l.tcpListener.addr, l.server.closed, l.tcpListener.closed, l.ctx.err))
      = some ("127.0.0.1:7002", false, false, none) ∧
    (demoService.TryAutoSignIn brokenClientEnv "30s").ret
      = Ret.returned false (some (GoError.other "fetch OIDC config failed")) ∧
    windowsOpened (demoService.TryAutoSignIn brokenClientEnv "30s").trace = [] ∧
    (demoService.TryAutoSignIn brokenClientEnv "30s").listener.map
        (fun l => (l.tcpListener.addr, l.server.closed, l.tcpListener.closed, l.ctx.err))
      = some ("127.0.0.1:7002", false, false, none) ∧
    (demoService.SignOut brokenClientEnv).ret
      = Ret.returned false (some (GoError.other "fetch OIDC config failed")) ∧
    windowsOpened (demoService.SignOut brokenClientEnv).trace = [] ∧
    (demoService.SignOut brokenClientEnv).listener.map
        (fun l => (l.tcpListener.addr, l.server.closed, l.tcpListener.closed, l.ctx.err))
      = some ("127.0.0.1:7002", false, false, none) :=
  ⟨rfl, rfl, rfl, rfl, rfl, rfl, rfl, rfl, rfl⟩

/-- C8: in a run of `SignIn` whose `StartListener` returned a nil error and the
URL `u`, the sign-in URL builder is called once, with the options of the merge
rule for `u` and the caller options: each of `RedirectUri`, `Prompt`,
`FirstScreen`, `LoginHint`, `Identifiers`, `ExtraParams` and `DirectSignIn` is
the caller value when set and the default otherwise; with no options or nil
options the builder gets exactly the options whose only non-zero field is
`RedirectUri`, equal to `u`. -/
theorem SignIn_option_merge (s : Service) (env : Env) (opts : List (Option SignInOptions))
    (hpan : (StartListener env.net env.handleSignInCallback s.config.SignInURIs.1).panicked
      = false)
    (hstart : (StartListener env.net env.handleSignInCallback s.config.SignInURIs.1).err = none) :
    signInArgs (s.SignIn env opts).trace
      = [mergeRule (StartListener env.net env.handleSignInCallback s.config.SignInURIs.1).url
          (callerOptions opts)] ∧
    signInArgs (s.SignIn env []).trace
      = [⟨(StartListener env.net env.handleSignInCallback s.config.SignInURIs.1).url,
          "", "", none, none, "", none⟩] ∧
    (∀ rest, signInArgs (s.SignIn env (none :: rest)).trace
      = [⟨(StartListener env.net env.handleSignInCallback s.config.SignInURIs.1).url,
          "", "", none, none, "", none⟩]) := by
  refine ⟨?_, ?_, ?_⟩
  · rw [SignIn_builder_arg s env opts hpan hstart, clientOpts_eq_mergeRule]
  · rw [SignIn_builder_arg s env [] hpan hstart]; rfl
  · intro rest
    rw [SignIn_builder_arg s env (none :: rest) hpan hstart]; rfl

/-- C8 at a concrete input: the caller sets `Prompt` and `Identifiers` and
leaves the rest unset, with an empty non-nil `ExtraParams`. -/
theorem SignIn_option_merge_witness :
    signInArgs (demoService.SignIn callbackEnv
        [some ⟨"", "login", "", some ["email"], none, "", some []⟩]).trace
      = [⟨"http://127.0.0.1:7002/cb", "login", "", some ["email"], none, "", none⟩] :=
  (SignIn_option_merge demoService callbackEnv
    [some ⟨"", "login", "", some ["email"], none, "", some []⟩] rfl rfl).1

/-! ## Store -/

theorem lookup_filter_ne (m : GoMap) (k k2 : String) (h : k2 ≠ k) :
    List.lookup k2 (m.filter (fun p => p.1 != k)) = List.lookup k2 m := by
  induction m with
  | nil => rfl
  | cons p t ih =>
    obtain ⟨a, b⟩ := p
    by_cases hak : a = k
    · subst hak
      have hne : (k2 == a) = false := by simpa using h
      simp [List.filter, List.lookup, hne, ih]
    · have hf : (a != k) = true := by simpa using hak
      simp only [List.filter, hf, List.lookup, ih]

theorem GoMap.get_set (m : GoMap) (k k2 v : String) :
    (m.set k v).get k2 = if k2 = k then v else m.get k2 := by
  by_cases h : k2 = k
  · subst h
    simp [GoMap.get, GoMap.set, List.lookup]
  · have hne : (k2 == k) = false := by simpa using h
    simp only [GoMap.get, GoMap.set, List.lookup, hne, lookup_filter_ne m k k2 h, if_neg h]

/-- From a store with an allocated map, a sequence of `SetItem` calls on keys
other than `k` does not panic and leaves what `GetItem k` returns. -/
theorem setAll_other_keys (k : String) :
    ∀ (ops : List (String × String)) (s : Store), s.vals ≠ none →
      (∀ p ∈ ops, p.1 ≠ k) →
      ∃ s1, Store.setAll ops s = some s1 ∧ s1.vals ≠ none ∧
        (s1.GetItem k).1 = (s.GetItem k).1 := by
  intro ops
  induction ops with
  | nil => intro s hs _; exact ⟨s, rfl, hs, rfl⟩
  | cons p t ih =>
    intro s hs hops
    cases hv : s.vals with
    | none => exact absurd hv hs
    | some m =>
      have hne : k ≠ p.1 := fun heq => hops p (List.mem_cons_self p t) heq.symm
      have hstep : s.SetItem p.1 p.2 = some ⟨some (m.set p.1 p.2)⟩ := by
        simp [Store.SetItem, hv]
      obtain ⟨s1, h1, h2, h3⟩ := ih ⟨some (m.set p.1 p.2)⟩ (by simp)
        (fun q hq => hops q (List.mem_cons_of_mem p hq))
      refine ⟨s1, ?_, h2, ?_⟩
      · simp only [Store.setAll, hstep, h1]
      · rw [h3]
        simp [Store.GetItem, hv, GoMap.get_set, hne]

/-- C9, as amended: for every store `s` whose map is allocated, `SetItem k v`
does not panic and gives a store with an allocated map on which `GetItem k`
returns `v` and `GetItem` of another key returns what it returned on `s`;
`NewStore()` has an allocated map; on every store, the zero value included,
`GetItem` leaves the store as it was; `GetItem` on `NewStore()` and on the
zero value returns the empty string, and so does `GetItem k` after any
sequence of `SetItem` calls from `NewStore()` on keys other than `k`. -/
theorem Store_total_map (s s0 : Store) (k k2 v : String) (ops : List (String × String))
    (hs : s.vals ≠ none) (hops : ∀ p ∈ ops, p.1 ≠ k) :
    (∃ s1, s.SetItem k v = some s1 ∧ s1.vals ≠ none ∧
      (s1.GetItem k).1 = v ∧
      (s1.GetItem k2).1 = (if k2 = k then v else (s.GetItem k2).1) ∧
      (k2 ≠ k → (s1.GetItem k2).1 = (s.GetItem k2).1)) ∧
    NewStore.vals ≠ none ∧
    (s0.GetItem k).2 = s0 ∧
    (NewStore.GetItem k).1 = "" ∧
    (zeroStore.GetItem k).1 = "" ∧
    (∃ sN, Store.setAll ops NewStore = some sN ∧ (sN.GetItem k).1 = "") := by
  refine ⟨?_, by simp [NewStore], ?_, rfl, rfl, ?_⟩
  · cases hv : s.vals with
    | none => exact absurd hv hs
    | some m =>
      refine ⟨⟨some (m.set k v)⟩, by simp [Store.SetItem, hv], by simp, ?_, ?_, ?_⟩
      · simp [Store.GetItem, GoMap.get_set]
      · simp [Store.GetItem, hv, GoMap.get_set]
      · intro h
        simp [Store.GetItem, hv, GoMap.get_set, h]
  · unfold Store.GetItem
    split <;> rfl
  · obtain ⟨sN, h1, -, h3⟩ := setAll_other_keys k ops NewStore (by simp [NewStore]) hops
    exact ⟨sN, h1, by rw [h3]; rfl⟩

/-- C9 at a concrete input: two keys are set, a third is read. -/
theorem Store_total_map_witness :
    (∃ s1, (⟨some [("a", "1")]⟩ : Store).SetItem "k" "v" = some s1 ∧ s1.vals ≠ none ∧
      (s1.GetItem "k").1 = "v" ∧
      (s1.GetItem "a").1 = (if "a" = "k" then "v" else
        ((⟨some [("a", "1")]⟩ : Store).GetItem "a").1) ∧
      ("a" ≠ "k" → (s1.GetItem "a").1 = ((⟨some [("a", "1")]⟩ : Store).GetItem "a").1)) ∧
    (∃ sN, Store.setAll [("a", "1"), ("b", "2")] NewStore = some sN ∧
      (sN.GetItem "k").1 = "") :=
  have h := Store_total_map ⟨some [("a", "1")]⟩ zeroStore "k" "a" "v" [("a", "1"), ("b", "2")]
    (by decide) (by decide)
  ⟨h.1, h.2.2.2.2.2⟩

/-- C9 as stated fails: on the zero value `Store{}`, whose map is nil,
`SetItem("k", "v")` panics, so there is no store after it on which
`GetItem("k")` returns `"v"`. -/
theorem Store_zero_value_SetItem_panics :
    zeroStore.SetItem "k" "v" = none ∧
    ¬ ∃ s1, zeroStore.SetItem "k" "v" = some s1 ∧ (s1.GetItem "k").1 = "v" :=
  ⟨rfl, fun ⟨_, h, _⟩ => by cases h⟩

/-! ## Config -/

theorem foldl_append_eq {α : Type} (f : α → String) (l : List α) :
    ∀ init : List String,
      l.foldl (fun uris r => GoSlice.append uris (f r)) (some init) = some (init ++ l.map f) := by
  induction l with
  | nil => intro init; simp
  | cons a t ih =>
    intro init
    have hstep : GoSlice.append (some init) (f a) = some (init ++ [f a]) := rfl
    rw [List.foldl_cons, hstep, ih (init ++ [f a])]
    simp

/-- C10: `SignInURIs` and `SignOutURIs` return non-nil slices of the length of
`RedirectAddresses`, empty when it is empty or nil; at every index the first
holds the `SignIn` member and the second the `SignOut` member of the pair at
that index; the configuration after either call is the configuration before. -/
theorem Config_URIs_parallel (c : Config) :
    c.SignInURIs.1.len = c.RedirectAddresses.len ∧
    c.SignOutURIs.1.len = c.RedirectAddresses.len ∧
    (∀ i : Nat, c.SignInURIs.1.elems[i]?
      = (c.RedirectAddresses.elems[i]?).map RedirectURIs.SignIn) ∧
    (∀ i : Nat, c.SignOutURIs.1.elems[i]?
      = (c.RedirectAddresses.elems[i]?).map RedirectURIs.SignOut) ∧
    c.SignInURIs.1 = some (c.RedirectAddresses.elems.map RedirectURIs.SignIn) ∧
    c.SignOutURIs.1 = some (c.RedirectAddresses.elems.map RedirectURIs.SignOut) ∧
    c.SignInURIs.2 = c ∧ c.SignOutURIs.2 = c := by
  have h1 : c.SignInURIs.1 = some (c.RedirectAddresses.elems.map RedirectURIs.SignIn) := by
    simp only [Config.SignInURIs, foldl_append_eq, List.nil_append]
  have h2 : c.SignOutURIs.1 = some (c.RedirectAddresses.elems.map RedirectURIs.SignOut) := by
    simp only [Config.SignOutURIs, foldl_append_eq, List.nil_append]
  refine ⟨?_, ?_, ?_, ?_, h1, h2, rfl, rfl⟩
  · rw [h1]; simp [GoSlice.len, GoSlice.elems]
  · rw [h2]; simp [GoSlice.len, GoSlice.elems]
  · intro i; rw [h1]; simp [GoSlice.elems]
  · intro i; rw [h2]; simp [GoSlice.elems]


end WailsLogto
